import Mathlib

/-!
Verification development for `jolt-evm-verifier/script/src/bin/hyperkzg_batch_example.rs`.

The file embeds the program shallowly:

* Field elements of BN254 are residues, represented by natural numbers; the
  canonical representative of a residue `x` modulo `p` is `x % p`, matching
  `into_bigint()` on an `ark_ff` prime-field element.
* `to_bytes_be` on a 256-bit big integer yields exactly 32 big-endian bytes
  (`toBytesBE32`); `U256::from_be_slice` accepts at most 32 bytes and panics
  otherwise, modelled by `Option` (`fromBeSlice`).
* The contract-ABI encoding of the `sol!` structs is modelled at word level
  (`encodeSeq`), following the standard head/tail layout produced by
  `alloy_sol_types`' `abi_encode`.
* The commitment scheme (`HyperKZGSRS::setup`, `trim`, `HyperKZG::commit`,
  `HyperKZG::batch_prove`, `DensePolynomial`, `ProofTranscript`) is external
  collaborator code not present under `src/`; it is modelled from the spec as a
  structure of deterministic functions (`Collab`), and the orchestration of
  `main` is embedded as `orchestrate` / `buildExample` / `runMain`.
-/

/-- BN254 base-field modulus (the field of G1 coordinates and of the
components of G2 coordinates). -/
def qBN : Nat :=
  21888242871839275222246405745257275088696311157297823662689037894645226208583

/-- BN254 scalar-field modulus. -/
def rBN : Nat :=
  21888242871839275222246405745257275088548364400416034343698204186575808495617

/-- Big-endian byte list of length `k` for the low `k` bytes of `x`, most
significant byte first; models `BigInteger::to_bytes_be` limb serialization. -/
def toBytesBEAux : Nat → Nat → List Nat
  | 0, _ => []
  | k + 1, x => x / 256 ^ k % 256 :: toBytesBEAux k x

/-- The 32-byte big-endian serialization of a 256-bit big integer, as
produced by `into_bigint().to_bytes_be()` for a BN254 field element. -/
def toBytesBE32 (x : Nat) : List Nat := toBytesBEAux 32 x

/-- Value of a big-endian byte list. -/
def beValue : List Nat → Nat
  | [] => 0
  | b :: bs => b * 256 ^ bs.length + beValue bs

/-- Model of `U256::from_be_slice`: succeeds only on slices of at most 32
bytes (the real function panics on longer input). -/
def fromBeSlice (bs : List Nat) : Option Nat :=
  if bs.length ≤ 32 then some (beValue bs) else none

/-- Encoding of a base-field residue as a `U256` word, as the program does:
canonical representative, 32 big-endian bytes, then `from_be_slice`. -/
def fqWord (x : Nat) : Option Nat := fromBeSlice (toBytesBE32 (x % qBN))

/-- Encoding of a scalar-field residue as a `U256` word. -/
def frWord (x : Nat) : Option Nat := fromBeSlice (toBytesBE32 (x % rBN))

theorem toBytesBEAux_length (k x : Nat) : (toBytesBEAux k x).length = k := by
  induction k generalizing x with
  | zero => rfl
  | succ k ih => simp [toBytesBEAux, ih]

theorem toBytesBEAux_lt (k x : Nat) : ∀ b ∈ toBytesBEAux k x, b < 256 := by
  induction k generalizing x with
  | zero => simp [toBytesBEAux]
  | succ k ih =>
    intro b hb
    simp only [toBytesBEAux, List.mem_cons] at hb
    rcases hb with h | h
    · subst h; exact Nat.mod_lt _ (by norm_num)
    · exact ih x b h

theorem beValue_toBytesBEAux (k x : Nat) :
    beValue (toBytesBEAux k x) = x % 256 ^ k := by
  induction k generalizing x with
  | zero => simp [toBytesBEAux, beValue, Nat.mod_one]
  | succ k ih =>
    simp only [toBytesBEAux, beValue, toBytesBEAux_length, ih]
    rw [pow_succ, Nat.mod_mul]
    ring

theorem qBN_lt : qBN < 256 ^ 32 := by norm_num [qBN]

theorem rBN_lt : rBN < 256 ^ 32 := by norm_num [rBN]

theorem fromBeSlice_toBytesBE32 (x : Nat) :
    fromBeSlice (toBytesBE32 x) = some (x % 256 ^ 32) := by
  simp [fromBeSlice, toBytesBE32, toBytesBEAux_length, beValue_toBytesBEAux]

theorem fqWord_eq (x : Nat) : fqWord x = some (x % qBN) := by
  rw [fqWord, fromBeSlice_toBytesBE32,
    Nat.mod_eq_of_lt (lt_trans (Nat.mod_lt _ (by norm_num [qBN])) qBN_lt)]

theorem frWord_eq (x : Nat) : frWord x = some (x % rBN) := by
  rw [frWord, fromBeSlice_toBytesBE32,
    Nat.mod_eq_of_lt (lt_trans (Nat.mod_lt _ (by norm_num [rBN])) rBN_lt)]

/-- One hexadecimal digit, lowercase, as printed by `hex::encode`. -/
def hexDigit (n : Nat) : Char :=
  if n < 10 then Char.ofNat (48 + n) else Char.ofNat (87 + n)

/-- The two lowercase hex characters of one byte. -/
def hexByte (b : Nat) : List Char := [hexDigit (b / 16), hexDigit (b % 16)]

/-- Model of `hex::encode`: lowercase hexadecimal rendering of a byte list. -/
def hexEncode (bs : List Nat) : List Char := (bs.map hexByte).flatten

/-- A character of the lowercase hexadecimal alphabet. -/
def isHexLowerChar (ch : Char) : Bool :=
  (48 ≤ ch.toNat && ch.toNat ≤ 57) || (97 ≤ ch.toNat && ch.toNat ≤ 102)

theorem hexDigit_lower : ∀ n : Fin 16, isHexLowerChar (hexDigit n.val) = true := by
  decide

theorem hexEncode_lower (bs : List Nat) (h : ∀ b ∈ bs, b < 256) :
    ∀ ch ∈ hexEncode bs, isHexLowerChar ch = true := by
  intro ch hch
  simp only [hexEncode, List.mem_flatten, List.mem_map] at hch
  obtain ⟨l, ⟨b, hb, rfl⟩, hl⟩ := hch
  have hb256 := h b hb
  have h1 : b / 16 < 16 := Nat.div_lt_of_lt_mul (by omega)
  have h2 : b % 16 < 16 := Nat.mod_lt _ (by norm_num)
  simp only [hexByte, List.mem_cons, List.not_mem_nil, or_false] at hl
  rcases hl with rfl | rfl
  · exact hexDigit_lower ⟨b / 16, h1⟩
  · exact hexDigit_lower ⟨b % 16, h2⟩

/-- Serialization of a list of 256-bit words into bytes, 32 bytes per word. -/
def wordsToBytes (ws : List Nat) : List Nat := (ws.map toBytesBE32).flatten

theorem wordsToBytes_lt (ws : List Nat) : ∀ b ∈ wordsToBytes ws, b < 256 := by
  intro b hb
  simp only [wordsToBytes, List.mem_flatten, List.mem_map] at hb
  obtain ⟨l, ⟨w, _, rfl⟩, hl⟩ := hb
  exact toBytesBEAux_lt 32 w b hl

/-- A component of an ABI tuple at word level: either a one-word static value
(`uint256`) or a dynamic component given by its tail words. -/
inductive AbiVal where
  | word : Nat → AbiVal
  | dyn : List Nat → AbiVal

/-- Head/tail computation of the standard contract-ABI sequence encoder: the
accumulator `off` is the word offset at which the next dynamic tail will be
placed; dynamic heads are byte offsets (32 bytes per word). -/
def encodeSeqAux : List AbiVal → Nat → List Nat × List Nat
  | [], _ => ([], [])
  | AbiVal.word w :: rest, off =>
    let p := encodeSeqAux rest off
    (w :: p.1, p.2)
  | AbiVal.dyn t :: rest, off =>
    let p := encodeSeqAux rest (off + t.length)
    (32 * off :: p.1, t ++ p.2)

/-- Contract-ABI encoding of a sequence of components: all heads (one word
each here), followed by the dynamic tails in declaration order. -/
def encodeSeq (comps : List AbiVal) : List Nat :=
  (encodeSeqAux comps comps.length).1 ++ (encodeSeqAux comps comps.length).2

/-- Tail of a `uint256[]` value: length word followed by the elements. -/
def encWords (xs : List Nat) : List Nat := xs.length :: xs

/-- Affine G1 point of BN254: coordinates are base-field residues. -/
structure G1Affine where
  x : Nat
  y : Nat
deriving DecidableEq, Repr, Inhabited

/-- Quadratic-extension element: pair (c0, c1) of base-field residues. -/
structure Fq2 where
  c0 : Nat
  c1 : Nat
deriving DecidableEq, Repr, Inhabited

/-- Affine G2 point of BN254. -/
structure G2Affine where
  x : Fq2
  y : Fq2
deriving DecidableEq, Repr, Inhabited

/-- Additive inverse of a base-field residue, in canonical form. -/
def fqNeg (a : Nat) : Nat := (qBN - a % qBN) % qBN

/-- Component-wise negation of a quadratic-extension element, as in the
arkworks field tower. -/
def Fq2.neg (a : Fq2) : Fq2 := ⟨fqNeg a.c0, fqNeg a.c1⟩

/-- Negation of an affine short-Weierstrass point: the x coordinate is kept
and the y coordinate is negated; models `-p` on an arkworks `G2Affine`. -/
def G2Affine.neg (p : G2Affine) : G2Affine := ⟨p.x, Fq2.neg p.y⟩

/-- Modelled from the spec: the inner KZG verifier key held by the HyperKZG
verifier key — generator `g1`, generator `g2` and the toxic-waste-scaled
`beta_g2` (spec §3, VerifierKey row). The type `KZGVerifierKey` itself is
defined in `jolt_core`, which is not under `src/`. -/
structure KZGVerifierKey where
  g1 : G1Affine
  g2 : G2Affine
  beta_g2 : G2Affine
deriving DecidableEq, Repr, Inhabited

/-- Modelled from the spec: the HyperKZG verifier key, wrapping the KZG
verifier key in its `kzg_vk` field as accessed by the program. -/
structure HyperKZGVerifierKey where
  kzg_vk : KZGVerifierKey
deriving DecidableEq, Repr, Inhabited

/-- Modelled from the spec: a HyperKZG batch opening proof — two ordered
sequences of G1 points (`com`, `w`) and the sequence `v` of three ordered
sequences of scalars (spec §3, batch opening proof row). -/
structure HyperKZGProof where
  com : List G1Affine
  w : List G1Affine
  v : List (List Nat)
deriving DecidableEq, Repr, Inhabited

/-- Modelled from the spec: the opaque batching-strategy selector passed
through unchanged to `BatchProve` (spec §4.2); the program uses `Big`. -/
inductive BatchType where
  | Big
  | Small
deriving DecidableEq, Repr, Inhabited

/-- Modelled from the spec: the Fiat-Shamir transcript, a deterministic
object initialized once with a fixed label (spec §4.2); only its freshness
and label are observable to this program. -/
structure ProofTranscript where
  label : String
deriving DecidableEq, Repr, Inhabited

/-- Modelled from the spec: `ProofTranscript::new` initializes a fresh
transcript with the given label. -/
def ProofTranscript.new (l : String) : ProofTranscript := ⟨l⟩

/-- Modelled from the spec: the external commitment-scheme collaborator and
the deterministic randomness source (spec §4.2 and §6). `Rng` is the state
of the seeded deterministic generator, `SRS`, `PK`, `Poly` are the opaque
structured reference string, prover key and multilinear-polynomial types.
Every operation is a pure function: the collaborator is deterministic. -/
structure Collab (Rng SRS PK Poly : Type) where
  seedFromU64 : Nat → Rng
  rand : Rng → Nat × Rng
  setup : Rng → Nat → SRS × Rng
  trim : SRS → Nat → PK × HyperKZGVerifierKey
  mkPoly : List Nat → Poly
  evaluate : Poly → List Nat → Nat
  commit : PK → Poly → Option G1Affine
  batchProve : PK × HyperKZGVerifierKey → List Poly → List Nat → List Nat →
    BatchType → ProofTranscript → HyperKZGProof

/-- One collaborator call recorded by the orchestration, used to state how
often and with which arguments each external operation is invoked. -/
inductive CallEvent (Poly : Type) where
  | setupCall : Nat → CallEvent Poly
  | trimCall : Nat → CallEvent Poly
  | pointDraw : Nat → CallEvent Poly
  | evalCall : Poly → List Nat → CallEvent Poly
  | commitCall : Poly → CallEvent Poly
  | transcriptNew : String → CallEvent Poly
  | batchProveCall : List Poly → List Nat → List Nat → BatchType →
      ProofTranscript → CallEvent Poly
deriving DecidableEq, Repr

variable {Rng SRS PK Poly : Type}

/-- Whether an event is a `BatchProve` invocation. -/
def CallEvent.isBatchProve : CallEvent Poly → Bool
  | .batchProveCall _ _ _ _ _ => true
  | _ => false

/-- Whether an event is a transcript initialization. -/
def CallEvent.isTranscriptNew : CallEvent Poly → Bool
  | .transcriptNew _ => true
  | _ => false

/-- The batching strategy carried by an event, when it is a `BatchProve`
invocation. -/
def CallEvent.strategy : CallEvent Poly → Option BatchType
  | .batchProveCall _ _ _ bt _ => some bt
  | _ => none

/-- The hypercube dimension `ell` hard-coded by the program (line 21). -/
def ell : Nat := 12

/-- Truncation of a natural number to a 64-bit machine integer, the meaning
of the source cast `as u64`. -/
def seedCast (x : Nat) : Nat := x % 2 ^ 64

/-- The RNG seed: `ChaCha20Rng::seed_from_u64(ell as u64)` (line 22). -/
def mainSeed : Nat := seedCast ell

/-- The table size `n = 1 << ell` (line 24). -/
def nMain : Nat := 1 <<< ell

/-- The batch width: the program commits 8 polynomials (line 37). -/
def numPolys : Nat := 8

/-- Draw `k` scalars in order from the deterministic generator, threading
its state, as `(0..k).map(|_| ScalarField::rand(&mut rng)).collect()`. -/
def drawScalars (c : Collab Rng SRS PK Poly) : Nat → Rng → List Nat × Rng
  | 0, r => ([], r)
  | k + 1, r =>
    let d := c.rand r
    let rest := drawScalars c k d.2
    (d.1 :: rest.1, rest.2)

/-- State of the commitment loop of lines 33–47: the accumulated
polynomials, claimed evaluations, commitments, generator state and call
trace. -/
structure LoopState (Rng Poly : Type) where
  polys : List Poly
  evals : List Nat
  commitments : List G1Affine
  rng : Rng
  trace : List (CallEvent Poly)

/-- The commitment loop (lines 37–47): each iteration draws a fresh
polynomial of `nMain` random scalars, evaluates it at the shared point,
commits it (`unwrap`: a failed commit aborts the program, modelled by
`none`), and appends polynomial, claim and commitment to the order-aligned
lists. -/
def commitLoop (c : Collab Rng SRS PK Poly) (pk : PK) (pt : List Nat) :
    Nat → LoopState Rng Poly → Option (LoopState Rng Poly)
  | 0, st => some st
  | k + 1, st =>
    let d := drawScalars c nMain st.rng
    let poly := c.mkPoly d.1
    let ev := c.evaluate poly pt
    match c.commit pk poly with
    | none => none
    | some cm =>
      commitLoop c pk pt k
        { polys := st.polys ++ [poly]
          evals := st.evals ++ [ev]
          commitments := st.commitments ++ [cm]
          rng := d.2
          trace := st.trace ++ [CallEvent.evalCall poly pt, CallEvent.commitCall poly] }

/-- Everything `main` has produced when the proving phase finishes:
keys, shared point, polynomials, claims, commitments, the batch proof, and
the collaborator call trace. -/
structure OrchResult (PK Poly : Type) where
  pk : PK
  vk : HyperKZGVerifierKey
  point : List Nat
  polys : List Poly
  evals : List Nat
  commitments : List G1Affine
  proof : HyperKZGProof
  trace : List (CallEvent Poly)
deriving DecidableEq, Inhabited

/-- Line 22: the generator seeded from `ell` cast to 64 bits. -/
def rng0 (c : Collab Rng SRS PK Poly) : Rng := c.seedFromU64 mainSeed

/-- Line 26: `HyperKZGSRS::setup(&mut rng, n)` — the SRS together with the
generator state after setup consumed randomness. -/
def setupRes (c : Collab Rng SRS PK Poly) : SRS × Rng := c.setup (rng0 c) nMain

/-- Line 27: `srs.trim(n)`, the prover and verifier keys. -/
def mainKeys (c : Collab Rng SRS PK Poly) : PK × HyperKZGVerifierKey :=
  c.trim (setupRes c).1 nMain

/-- Lines 29–31: the shared evaluation point of `ell` random scalars, with
the generator state afterwards. -/
def pointDrawRes (c : Collab Rng SRS PK Poly) : List Nat × Rng :=
  drawScalars c ell (setupRes c).2

/-- The loop state before the first iteration of lines 37–47: all lists
empty, generator positioned after the point draw. -/
def initState (c : Collab Rng SRS PK Poly) : LoopState Rng Poly :=
  { polys := [], evals := [], commitments := [], rng := (pointDrawRes c).2
    trace := [CallEvent.setupCall nMain, CallEvent.trimCall nMain,
              CallEvent.pointDraw ell] }

/-- The outcome of the commitment loop of lines 37–47. -/
def loopRes (c : Collab Rng SRS PK Poly) : Option (LoopState Rng Poly) :=
  commitLoop c (mainKeys c).1 (pointDrawRes c).1 numPolys (initState c)

/-- The batch-opening orchestration of lines 21–62: seed the generator from
`ell`, set up and trim the SRS for `n = 2 ^ ell`, draw the shared
evaluation point of `ell` scalars, run the commitment loop over
`numPolys` polynomials, then create one fresh transcript labelled
`TestEval` and invoke `batch_prove` once. `none` models the abrupt
termination caused by a failed `commit`. -/
def orchestrate (c : Collab Rng SRS PK Poly) : Option (OrchResult PK Poly) :=
  match loopRes c with
  | none => none
  | some st =>
    let tr := ProofTranscript.new "TestEval"
    let proof := c.batchProve ((mainKeys c).1, (mainKeys c).2) st.polys
      (pointDrawRes c).1 st.evals BatchType.Big tr
    some { pk := (mainKeys c).1, vk := (mainKeys c).2
           point := (pointDrawRes c).1, polys := st.polys
           evals := st.evals, commitments := st.commitments, proof := proof
           trace := st.trace ++ [CallEvent.transcriptNew "TestEval",
             CallEvent.batchProveCall st.polys (pointDrawRes c).1 st.evals
               BatchType.Big tr] }

/-- The `sol!` struct `VK` (lines 64–69): the verifier key as laid out for
the contract. -/
structure VK where
  VK_g1_x : Nat
  VK_g1_y : Nat
  VK_g2 : List Nat
  VK_beta_g2 : List Nat
deriving DecidableEq, Repr, Inhabited

/-- The `sol!` struct `HyperKZGProofSol` (lines 70–76): G1 points are
represented pairwise and the three scalar vectors must be `ell` long. -/
structure HyperKZGProofSol where
  com : List Nat
  w : List Nat
  v_ypos : List Nat
  v_yneg : List Nat
  v_y : List Nat
deriving DecidableEq, Repr, Inhabited

/-- The `sol!` struct `BatchedExample` (lines 77–83), fields in declaration
order `vk`, `proof`, `commitments`, `point`, `claims`. -/
structure BatchedExample where
  vk : VK
  proof : HyperKZGProofSol
  commitments : List Nat
  point : List Nat
  claims : List Nat
deriving DecidableEq, Repr, Inhabited

/-- Contract-ABI tuple encoding of `VK`: two static words then two dynamic
`uint256[]` fields. -/
def VK.encode (v : VK) : List Nat :=
  encodeSeq [AbiVal.word v.VK_g1_x, AbiVal.word v.VK_g1_y,
    AbiVal.dyn (encWords v.VK_g2), AbiVal.dyn (encWords v.VK_beta_g2)]

/-- Contract-ABI tuple encoding of `HyperKZGProofSol`: five dynamic
`uint256[]` fields. -/
def HyperKZGProofSol.encode (p : HyperKZGProofSol) : List Nat :=
  encodeSeq [AbiVal.dyn (encWords p.com), AbiVal.dyn (encWords p.w),
    AbiVal.dyn (encWords p.v_ypos), AbiVal.dyn (encWords p.v_yneg),
    AbiVal.dyn (encWords p.v_y)]

/-- Model of `BatchedExample::abi_encode` from `alloy_sol_types`: the value
is encoded as a single-element sequence, so the dynamic struct contributes
one offset head word followed by its tuple encoding (fields in declaration
order `vk`, `proof`, `commitments`, `point`, `claims`). -/
def BatchedExample.abiEncode (e : BatchedExample) : List Nat :=
  encodeSeq [AbiVal.dyn (encodeSeq
    [AbiVal.dyn e.vk.encode, AbiVal.dyn e.proof.encode,
     AbiVal.dyn (encWords e.commitments), AbiVal.dyn (encWords e.point),
     AbiVal.dyn (encWords e.claims)])]

/-- The word-conversion loop for a list of G1 points: for each point, push
the `x` word then the `y` word (lines 129–137 and 147–153). -/
def flattenG1 : List G1Affine → Option (List Nat)
  | [] => some []
  | p :: rest => do
    let wx ← fqWord p.x
    let wy ← fqWord p.y
    let ws ← flattenG1 rest
    pure (wx :: wy :: ws)

/-- The word-conversion map for a list of scalars (the `v_ypos`, `v_yneg`,
`v_y`, `point` and `claims` conversions). -/
def frWords : List Nat → Option (List Nat)
  | [] => some []
  | x :: rest => do
    let wx ← frWord x
    let ws ← frWords rest
    pure (wx :: ws)

/-- The four-word conversion of a G2 point's coordinates in the fixed order
`x.c0`, `x.c1`, `y.c0`, `y.c1` (lines 88–93 and 95–100). -/
def g2Words (g : G2Affine) : Option (List Nat) := do
  let x0 ← fqWord g.x.c0
  let x1 ← fqWord g.x.c1
  let y0 ← fqWord g.y.c0
  let y1 ← fqWord g.y.c1
  pure [x0, x1, y0, y1]

/-- Lines 85–107: build the `VK` struct. The verifier key's `g2` generator
is negated before serialization (line 87: `let g2 = -vk.kzg_vk.g2;`) while
`beta_g2` is serialized as it stands (line 94). -/
def buildVKSol (vk : HyperKZGVerifierKey) : Option VK := do
  let g1 := vk.kzg_vk.g1
  let g2_sol ← g2Words (G2Affine.neg vk.kzg_vk.g2)
  let g2_beta_sol ← g2Words vk.kzg_vk.beta_g2
  let w1x ← fqWord g1.x
  let w1y ← fqWord g1.y
  pure { VK_g1_x := w1x, VK_g1_y := w1y, VK_g2 := g2_sol
         VK_beta_g2 := g2_beta_sol }

/-- Lines 109–145: build the `HyperKZGProofSol` struct. The accesses
`proof.v[0]`, `proof.v[1]`, `proof.v[2]` panic when `v` is too short
(modelled by `Option`); `com` and `w` are flattened pairwise. -/
def buildProofSol (proof : HyperKZGProof) : Option HyperKZGProofSol := do
  let ypos_scalar ← proof.v[0]?
  let yneg_scalar ← proof.v[1]?
  let y_scalar ← proof.v[2]?
  let v_ypos ← frWords ypos_scalar
  let v_yneg ← frWords yneg_scalar
  let v_y ← frWords y_scalar
  let com ← flattenG1 proof.com
  let w ← flattenG1 proof.w
  pure { com := com, w := w, v_ypos := v_ypos, v_yneg := v_yneg, v_y := v_y }

/-- Lines 85–170: build the `BatchedExample` value from the raw verifier
key, proof, commitments, evaluation point and claims; every field element
passes through `U256::from_be_slice(into_bigint().to_bytes_be())`. -/
def buildExample (vk : HyperKZGVerifierKey) (proof : HyperKZGProof)
    (commitments : List G1Affine) (point : List Nat) (evals : List Nat) :
    Option BatchedExample := do
  let vk_sol ← buildVKSol vk
  let proof_sol ← buildProofSol proof
  let encoded_commitments ← flattenG1 commitments
  let point_encoded ← frWords point
  let evals_encoded ← frWords evals
  pure { vk := vk_sol, proof := proof_sol, commitments := encoded_commitments
         point := point_encoded, claims := evals_encoded }

/-- The ambient environment of the process: sources of nondeterminism an
executable could consult (operating-system entropy). The program never
reads it — its generator is seeded from the compiled-in constant. -/
structure Env where
  osEntropy : Nat → Nat

/-- The whole program (lines 16–173): orchestrate the batch opening, build
the `BatchedExample` value, ABI-encode it and render it as lowercase hex.
The result is the full standard-output text of a successful run; `none`
models abrupt termination with no output. -/
def runMain (_env : Env) (c : Collab Rng SRS PK Poly) : Option (List Char) :=
  match orchestrate c with
  | none => none
  | some r =>
    match buildExample r.vk r.proof r.commitments r.point r.evals with
    | none => none
    | some ex => some (hexEncode (wordsToBytes ex.abiEncode))

/-- Spec-side definition (§4.4, design note on flattened point arrays): a
list of G1 points flattened as x,y interleaved canonical words, one pair
per point, in list order. -/
def specInterleaveG1 (ps : List G1Affine) : List Nat :=
  (ps.map (fun p => [p.x % qBN, p.y % qBN])).flatten

/-- Spec-side definition: a list of scalars as canonical words. -/
def frWordList (xs : List Nat) : List Nat := xs.map (· % rBN)

/-- Spec-side definition (§3, G2 row): the four canonical coordinate words
of a G2 point in the order `x.c0`, `x.c1`, `y.c0`, `y.c1`. -/
def g2WordList (g : G2Affine) : List Nat :=
  [g.x.c0 % qBN, g.x.c1 % qBN, g.y.c0 % qBN, g.y.c1 % qBN]

theorem flattenG1_eq (ps : List G1Affine) :
    flattenG1 ps = some (specInterleaveG1 ps) := by
  induction ps with
  | nil => simp [flattenG1, specInterleaveG1]
  | cons p rest ih =>
    simp [flattenG1, specInterleaveG1, fqWord_eq, ih]

theorem frWords_eq (xs : List Nat) : frWords xs = some (frWordList xs) := by
  induction xs with
  | nil => simp [frWords, frWordList]
  | cons x rest ih => simp [frWords, frWordList, frWord_eq, ih]

theorem specInterleaveG1_length (ps : List G1Affine) :
    (specInterleaveG1 ps).length = 2 * ps.length := by
  induction ps with
  | nil => simp [specInterleaveG1]
  | cons p rest ih =>
    simp [specInterleaveG1] at ih ⊢
    omega

theorem frWordList_length (xs : List Nat) :
    (frWordList xs).length = xs.length := by
  simp [frWordList]

theorem g2Words_eq (g : G2Affine) : g2Words g = some (g2WordList g) := by
  simp [g2Words, g2WordList, fqWord_eq]

theorem buildVKSol_eq (vk : HyperKZGVerifierKey) :
    buildVKSol vk = some
      { VK_g1_x := vk.kzg_vk.g1.x % qBN, VK_g1_y := vk.kzg_vk.g1.y % qBN
        VK_g2 := g2WordList (G2Affine.neg vk.kzg_vk.g2)
        VK_beta_g2 := g2WordList vk.kzg_vk.beta_g2 } := by
  simp [buildVKSol, g2Words_eq, fqWord_eq]

theorem buildProofSol_eq (proof : HyperKZGProof) (a b d : List Nat)
    (rest : List (List Nat)) (hv : proof.v = a :: b :: d :: rest) :
    buildProofSol proof = some
      { com := specInterleaveG1 proof.com, w := specInterleaveG1 proof.w
        v_ypos := frWordList a, v_yneg := frWordList b, v_y := frWordList d } := by
  simp [buildProofSol, hv, frWords_eq, flattenG1_eq]

theorem buildExample_eq (vk : HyperKZGVerifierKey) (proof : HyperKZGProof)
    (commitments : List G1Affine) (point : List Nat) (evals : List Nat)
    (a b d : List Nat) (rest : List (List Nat)) (hv : proof.v = a :: b :: d :: rest) :
    buildExample vk proof commitments point evals = some
      { vk := { VK_g1_x := vk.kzg_vk.g1.x % qBN, VK_g1_y := vk.kzg_vk.g1.y % qBN
                VK_g2 := g2WordList (G2Affine.neg vk.kzg_vk.g2)
                VK_beta_g2 := g2WordList vk.kzg_vk.beta_g2 }
        proof := { com := specInterleaveG1 proof.com, w := specInterleaveG1 proof.w
                   v_ypos := frWordList a, v_yneg := frWordList b, v_y := frWordList d }
        commitments := specInterleaveG1 commitments
        point := frWordList point, claims := frWordList evals } := by
  simp [buildExample, buildVKSol_eq, buildProofSol_eq proof a b d rest hv,
    flattenG1_eq, frWords_eq]

theorem drawScalars_length (c : Collab Rng SRS PK Poly) (k : Nat) (r : Rng) :
    (drawScalars c k r).1.length = k := by
  induction k generalizing r with
  | zero => rfl
  | succ k ih => simp [drawScalars, ih]

theorem commitLoop_lengths (c : Collab Rng SRS PK Poly) (pk : PK)
    (pt : List Nat) (k : Nat) :
    ∀ st st', commitLoop c pk pt k st = some st' →
      st'.polys.length = st.polys.length + k ∧
      st'.evals.length = st.evals.length + k ∧
      st'.commitments.length = st.commitments.length + k := by
  induction k with
  | zero =>
    intro st st' h
    simp only [commitLoop] at h
    cases h
    simp
  | succ k ih =>
    intro st st' h
    simp only [commitLoop] at h
    cases hc : c.commit pk (c.mkPoly (drawScalars c nMain st.rng).1) with
    | none => rw [hc] at h; cases h
    | some cm =>
      rw [hc] at h
      have := ih _ _ h
      simp at this
      omega

theorem commitLoop_forall₂ (c : Collab Rng SRS PK Poly) (pk : PK)
    (pt : List Nat) (k : Nat) :
    ∀ st st', commitLoop c pk pt k st = some st' →
      List.Forall₂ (fun p e => e = c.evaluate p pt) st.polys st.evals →
      List.Forall₂ (fun p cm => c.commit pk p = some cm) st.polys st.commitments →
      List.Forall₂ (fun p e => e = c.evaluate p pt) st'.polys st'.evals ∧
      List.Forall₂ (fun p cm => c.commit pk p = some cm) st'.polys st'.commitments := by
  induction k with
  | zero =>
    intro st st' h h1 h2
    simp only [commitLoop] at h
    cases h
    exact ⟨h1, h2⟩
  | succ k ih =>
    intro st st' h h1 h2
    simp only [commitLoop] at h
    cases hc : c.commit pk (c.mkPoly (drawScalars c nMain st.rng).1) with
    | none => rw [hc] at h; cases h
    | some cm =>
      rw [hc] at h
      refine ih _ _ h ?_ ?_
      · exact List.rel_append h1 (List.Forall₂.cons rfl List.Forall₂.nil)
      · exact List.rel_append h2 (List.Forall₂.cons hc List.Forall₂.nil)

theorem commitLoop_filter (c : Collab Rng SRS PK Poly) (pk : PK)
    (pt : List Nat) (k : Nat) :
    ∀ st st', commitLoop c pk pt k st = some st' →
      ∀ p : CallEvent Poly → Bool,
        (∀ poly, p (CallEvent.commitCall poly) = false) →
        (∀ poly l, p (CallEvent.evalCall poly l) = false) →
        st'.trace.filter p = st.trace.filter p := by
  induction k with
  | zero =>
    intro st st' h p _ _
    simp only [commitLoop] at h
    cases h
    rfl
  | succ k ih =>
    intro st st' h p hpc hpe
    simp only [commitLoop] at h
    cases hc : c.commit pk (c.mkPoly (drawScalars c nMain st.rng).1) with
    | none => rw [hc] at h; cases h
    | some cm =>
      rw [hc] at h
      rw [ih _ _ h p hpc hpe]
      simp [List.filter_append, hpc, hpe]

theorem commitLoop_trace_append (c : Collab Rng SRS PK Poly) (pk : PK)
    (pt : List Nat) (k : Nat) :
    ∀ st st', commitLoop c pk pt k st = some st' →
      ∃ t, st'.trace = st.trace ++ t := by
  induction k with
  | zero =>
    intro st st' h
    simp only [commitLoop] at h
    cases h
    exact ⟨[], by simp⟩
  | succ k ih =>
    intro st st' h
    simp only [commitLoop] at h
    cases hc : c.commit pk (c.mkPoly (drawScalars c nMain st.rng).1) with
    | none => rw [hc] at h; cases h
    | some cm =>
      rw [hc] at h
      obtain ⟨t, ht⟩ := ih _ _ h
      refine ⟨[CallEvent.evalCall (c.mkPoly (drawScalars c nMain st.rng).1) pt,
        CallEvent.commitCall (c.mkPoly (drawScalars c nMain st.rng).1)] ++ t, ?_⟩
      rw [ht]
      simp

theorem getLast?_append_two {α : Type} (l : List α) (a b : α) :
    (l ++ [a, b]).getLast? = some b := by
  have h : l ++ [a, b] = (l ++ [a]) ++ [b] := by simp
  rw [h, List.getLast?_concat]

/-- Characterization of a successful orchestration: keys, point, list
lengths, order-aligned evaluation and commitment facts, the single
`batch_prove` invocation with the `Big` strategy and the fresh `TestEval`
transcript, and the shape of the collaborator call trace. -/
theorem orchestrate_spec (c : Collab Rng SRS PK Poly) (r : OrchResult PK Poly)
    (h : orchestrate c = some r) :
    r.pk = (mainKeys c).1 ∧ r.vk = (mainKeys c).2 ∧
    r.point = (pointDrawRes c).1 ∧
    r.point.length = ell ∧
    r.polys.length = numPolys ∧ r.evals.length = numPolys ∧
    r.commitments.length = numPolys ∧
    List.Forall₂ (fun p e => e = c.evaluate p r.point) r.polys r.evals ∧
    List.Forall₂ (fun p cm => c.commit r.pk p = some cm) r.polys r.commitments ∧
    r.proof = c.batchProve (r.pk, r.vk) r.polys r.point r.evals BatchType.Big
      (ProofTranscript.new "TestEval") ∧
    r.trace.filter CallEvent.isBatchProve =
      [CallEvent.batchProveCall r.polys r.point r.evals BatchType.Big
        (ProofTranscript.new "TestEval")] ∧
    r.trace.filter CallEvent.isTranscriptNew =
      [CallEvent.transcriptNew "TestEval"] ∧
    r.trace.take 3 = [CallEvent.setupCall nMain, CallEvent.trimCall nMain,
      CallEvent.pointDraw ell] ∧
    r.trace.getLast? = some (CallEvent.batchProveCall r.polys r.point r.evals
      BatchType.Big (ProofTranscript.new "TestEval")) := by
  unfold orchestrate at h
  cases hcl : loopRes c with
  | none => rw [hcl] at h; simp at h
  | some st =>
    rw [hcl] at h
    simp only [Option.some.injEq] at h
    subst h
    unfold loopRes at hcl
    have hlen := commitLoop_lengths c (mainKeys c).1 (pointDrawRes c).1 numPolys
      (initState c) st hcl
    have hfa := commitLoop_forall₂ c (mainKeys c).1 (pointDrawRes c).1 numPolys
      (initState c) st hcl (by simp [initState]) (by simp [initState])
    have hfil := commitLoop_filter c (mainKeys c).1 (pointDrawRes c).1 numPolys
      (initState c) st hcl
    obtain ⟨t, ht⟩ := commitLoop_trace_append c (mainKeys c).1 (pointDrawRes c).1
      numPolys (initState c) st hcl
    have hbp := hfil CallEvent.isBatchProve (fun _ => rfl) (fun _ _ => rfl)
    have htn := hfil CallEvent.isTranscriptNew (fun _ => rfl) (fun _ _ => rfl)
    simp only [initState] at hlen hbp htn ht
    refine ⟨rfl, rfl, rfl, drawScalars_length c ell _, ?_, ?_, ?_, hfa.1, hfa.2,
      rfl, ?_, ?_, ?_, ?_⟩
    · simpa using hlen.1
    · simpa using hlen.2.1
    · simpa using hlen.2.2
    · simp [List.filter_append, hbp, CallEvent.isBatchProve, CallEvent.isTranscriptNew]
    · simp [List.filter_append, htn, CallEvent.isBatchProve, CallEvent.isTranscriptNew]
    · rw [ht]
      simp
    · exact getLast?_append_two _ _ _

theorem abiEncode_layout (vkS : VK) (prS : HyperKZGProofSol)
    (cm pt cl : List Nat) :
    (BatchedExample.mk vkS prS cm pt cl).abiEncode =
      [32, 160,
       32 * (11 + vkS.VK_g2.length + vkS.VK_beta_g2.length),
       32 * (21 + vkS.VK_g2.length + vkS.VK_beta_g2.length + prS.com.length
            + prS.w.length + prS.v_ypos.length + prS.v_yneg.length + prS.v_y.length),
       32 * (22 + vkS.VK_g2.length + vkS.VK_beta_g2.length + prS.com.length
            + prS.w.length + prS.v_ypos.length + prS.v_yneg.length + prS.v_y.length
            + cm.length),
       32 * (23 + vkS.VK_g2.length + vkS.VK_beta_g2.length + prS.com.length
            + prS.w.length + prS.v_ypos.length + prS.v_yneg.length + prS.v_y.length
            + cm.length + pt.length)]
      ++ [vkS.VK_g1_x, vkS.VK_g1_y, 128, 32 * (5 + vkS.VK_g2.length)]
      ++ (vkS.VK_g2.length :: vkS.VK_g2)
      ++ (vkS.VK_beta_g2.length :: vkS.VK_beta_g2)
      ++ [160, 32 * (6 + prS.com.length),
          32 * (7 + prS.com.length + prS.w.length),
          32 * (8 + prS.com.length + prS.w.length + prS.v_ypos.length),
          32 * (9 + prS.com.length + prS.w.length + prS.v_ypos.length + prS.v_yneg.length)]
      ++ (prS.com.length :: prS.com)
      ++ (prS.w.length :: prS.w)
      ++ (prS.v_ypos.length :: prS.v_ypos)
      ++ (prS.v_yneg.length :: prS.v_yneg)
      ++ (prS.v_y.length :: prS.v_y)
      ++ (cm.length :: cm)
      ++ (pt.length :: pt)
      ++ (cl.length :: cl) := by
  simp [BatchedExample.abiEncode, VK.encode, HyperKZGProofSol.encode,
    encodeSeq, encodeSeqAux, encWords]
  omega

/-- The generator state after one polynomial draw of `nMain` scalars. -/
def nextRngBatch (c : Collab Rng SRS PK Poly) (r : Rng) : Rng :=
  (drawScalars c nMain r).2

/-- The generator state after `i` full polynomial draws starting from `r`. -/
def rngAt (c : Collab Rng SRS PK Poly) : Nat → Rng → Rng
  | 0, r => r
  | i + 1, r => rngAt c i (nextRngBatch c r)

/-- The polynomial the loop builds on its `i`-th iteration when the
generator enters the loop in state `r`: `DensePolynomial::new` applied to
the next `nMain` random scalars after `i` complete draws. -/
def polyFromRng (c : Collab Rng SRS PK Poly) (r : Rng) (i : Nat) : Poly :=
  c.mkPoly (drawScalars c nMain (rngAt c i r)).1

/-- The prover key obtained by `main` (line 27). -/
def pkOf (c : Collab Rng SRS PK Poly) : PK := (mainKeys c).1

/-- The `i`-th polynomial generated by `main`'s loop; the generator stream
is independent of commit outcomes, so this is well defined even for
iterations the program never reaches. -/
def mainPoly (c : Collab Rng SRS PK Poly) (i : Nat) : Poly :=
  polyFromRng c (pointDrawRes c).2 i

theorem commitLoop_none_of_fail (c : Collab Rng SRS PK Poly) (pk : PK)
    (pt : List Nat) (k : Nat) :
    ∀ st, (∃ j, j < k ∧ c.commit pk (polyFromRng c st.rng j) = none) →
      commitLoop c pk pt k st = none := by
  induction k with
  | zero =>
    intro st ⟨j, hj, _⟩
    omega
  | succ k ih =>
    intro st ⟨j, hj, hfail⟩
    simp only [commitLoop]
    cases hc : c.commit pk (c.mkPoly (drawScalars c nMain st.rng).1) with
    | none => rfl
    | some cm =>
      cases j with
      | zero =>
        exfalso
        simp only [polyFromRng, rngAt] at hfail
        rw [hc] at hfail
        cases hfail
      | succ j =>
        refine ih _ ⟨j, by omega, ?_⟩
        simp only [polyFromRng, rngAt, nextRngBatch] at hfail ⊢
        exact hfail

def vkW : HyperKZGVerifierKey := ⟨⟨⟨1, 2⟩, ⟨⟨3, 4⟩, ⟨5, 6⟩⟩, ⟨⟨7, 8⟩, ⟨9, 10⟩⟩⟩⟩

def cW : Collab Nat Unit Unit Unit :=
  { seedFromU64 := fun s => s
    rand := fun r => (r, r + 1)
    setup := fun r _ => ((), r)
    trim := fun _ _ => ((), vkW)
    mkPoly := fun _ => ()
    evaluate := fun _ _ => 7
    commit := fun _ _ => some ⟨3, 4⟩
    batchProve := fun _ _ _ _ _ _ =>
      ⟨[⟨1, 2⟩], [⟨5, 6⟩], [List.replicate 12 9, List.replicate 12 10,
        List.replicate 12 11]⟩ }

/-- The orchestration result of the witness collaborator. -/
def rW : OrchResult Unit Unit := (orchestrate cW).getD default

/-- The struct value built from the witness run. -/
def exW : BatchedExample :=
  (buildExample rW.vk rW.proof rW.commitments rW.point rW.evals).getD default

/-- The witness environment. -/
def envW : Env := ⟨fun n => n⟩

/-- A collaborator identical to the witness one except that `Commit`
always fails. -/
def cBad : Collab Nat Unit Unit Unit :=
  { cW with commit := fun _ _ => none }

set_option maxRecDepth 100000 in
theorem orch_cW : orchestrate cW = some rW := by decide

set_option maxRecDepth 100000 in
theorem build_cW :
    buildExample rW.vk rW.proof rW.commitments rW.point rW.evals = some exW := by
  decide


theorem add_fqNeg (a : Nat) : (a + fqNeg a) % qBN = 0 := by
  unfold fqNeg qBN
  omega

theorem proof_v_shape (proof : HyperKZGProof) (s : HyperKZGProofSol)
    (h : buildProofSol proof = some s) :
    ∃ a b d rest, proof.v = a :: b :: d :: rest := by
  match hv : proof.v with
  | [] => simp [buildProofSol, hv] at h
  | [a] => simp [buildProofSol, hv] at h
  | [a, b] => simp [buildProofSol, hv] at h
  | a :: b :: d :: rest => exact ⟨a, b, d, rest, rfl⟩

theorem buildExample_shape (vkk : HyperKZGVerifierKey) (proof : HyperKZGProof)
    (commitments : List G1Affine) (point evals : List Nat) (ex : BatchedExample)
    (h : buildExample vkk proof commitments point evals = some ex) :
    ∃ a b d rest, proof.v = a :: b :: d :: rest ∧
      ex = { vk := { VK_g1_x := vkk.kzg_vk.g1.x % qBN
                     VK_g1_y := vkk.kzg_vk.g1.y % qBN
                     VK_g2 := g2WordList (G2Affine.neg vkk.kzg_vk.g2)
                     VK_beta_g2 := g2WordList vkk.kzg_vk.beta_g2 }
             proof := { com := specInterleaveG1 proof.com
                        w := specInterleaveG1 proof.w
                        v_ypos := frWordList a, v_yneg := frWordList b
                        v_y := frWordList d }
             commitments := specInterleaveG1 commitments
             point := frWordList point, claims := frWordList evals } := by
  have hps : ∃ s, buildProofSol proof = some s := by
    simp only [buildExample, buildVKSol_eq, Option.bind_eq_bind, Option.some_bind] at h
    cases hq : buildProofSol proof with
    | none => rw [hq] at h; simp at h
    | some s => exact ⟨s, rfl⟩
  obtain ⟨s, hs⟩ := hps
  obtain ⟨a, b, d, rest, hv⟩ := proof_v_shape proof s hs
  rw [buildExample_eq vkk proof commitments point evals a b d rest hv] at h
  refine ⟨a, b, d, rest, hv, ?_⟩
  exact (Option.some.inj h).symm

theorem rBN_lt_pow256 : rBN < 2 ^ 256 := by norm_num [rBN]

theorem strategy_isBatchProve {P : Type} (e : CallEvent P) (bt : BatchType)
    (h : e.strategy = some bt) : e.isBatchProve = true := by
  cases e <;> simp [CallEvent.strategy, CallEvent.isBatchProve] at h ⊢

/-- Small concrete proof value for witnesses. -/
def proofW : HyperKZGProof := ⟨[⟨1, 2⟩], [⟨3, 4⟩], [[5], [6], [7]]⟩

/-- The struct built from the small concrete inputs. -/
def exC : BatchedExample := (buildExample vkW proofW [] [] []).getD default

theorem build_small : buildExample vkW proofW [] [] [] = some exC := by decide

/-- C1: in the encoded output, the verifier key's g2 generator is
serialized negated — its two `x` words are the canonical encodings of the
raw `g2.x` components and its two `y` words are the canonical encodings of
the `y` components of the negated point, each being the base-field
additive inverse of the raw component — while the four `beta_g2` words are
the canonical encodings of the raw `beta_g2` coordinates, un-negated. -/
theorem vk_g2_encoded_negated (vk : HyperKZGVerifierKey)
    (proof : HyperKZGProof) (commitments : List G1Affine)
    (point evals : List Nat) (ex : BatchedExample)
    (h : buildExample vk proof commitments point evals = some ex) :
    ex.vk.VK_g2 = [vk.kzg_vk.g2.x.c0 % qBN, vk.kzg_vk.g2.x.c1 % qBN,
      (G2Affine.neg vk.kzg_vk.g2).y.c0 % qBN,
      (G2Affine.neg vk.kzg_vk.g2).y.c1 % qBN] ∧
    (vk.kzg_vk.g2.y.c0 + (G2Affine.neg vk.kzg_vk.g2).y.c0) % qBN = 0 ∧
    (vk.kzg_vk.g2.y.c1 + (G2Affine.neg vk.kzg_vk.g2).y.c1) % qBN = 0 ∧
    ex.vk.VK_beta_g2 = [vk.kzg_vk.beta_g2.x.c0 % qBN,
      vk.kzg_vk.beta_g2.x.c1 % qBN, vk.kzg_vk.beta_g2.y.c0 % qBN,
      vk.kzg_vk.beta_g2.y.c1 % qBN] := by
  obtain ⟨a, b, d, rest, hv, hex⟩ :=
    buildExample_shape vk proof commitments point evals ex h
  subst hex
  refine ⟨?_, ?_, ?_, rfl⟩
  · simp [g2WordList, G2Affine.neg, Fq2.neg]
  · exact add_fqNeg _
  · exact add_fqNeg _

theorem vk_g2_encoded_negated_witness :
    exC.vk.VK_g2 = [vkW.kzg_vk.g2.x.c0 % qBN, vkW.kzg_vk.g2.x.c1 % qBN,
      (G2Affine.neg vkW.kzg_vk.g2).y.c0 % qBN,
      (G2Affine.neg vkW.kzg_vk.g2).y.c1 % qBN] ∧
    (vkW.kzg_vk.g2.y.c0 + (G2Affine.neg vkW.kzg_vk.g2).y.c0) % qBN = 0 ∧
    (vkW.kzg_vk.g2.y.c1 + (G2Affine.neg vkW.kzg_vk.g2).y.c1) % qBN = 0 ∧
    exC.vk.VK_beta_g2 = [vkW.kzg_vk.beta_g2.x.c0 % qBN,
      vkW.kzg_vk.beta_g2.x.c1 % qBN, vkW.kzg_vk.beta_g2.y.c0 % qBN,
      vkW.kzg_vk.beta_g2.y.c1 % qBN] :=
  vk_g2_encoded_negated vkW proofW [] [] [] exC build_small

/-- C5: the program is deterministic — its output is a function of the
compiled-in constants and the deterministic collaborator only; it never
consults the ambient environment, so two runs under arbitrary environments
produce byte-identical output. -/
theorem output_deterministic (c : Collab Rng SRS PK Poly) (e1 e2 : Env) :
    runMain e1 c = runMain e2 c := rfl

/-- C10: the RNG seed is not an independent parameter — it is defined as
the hypercube dimension `ell` cast to a 64-bit integer, both equal to 12,
and the cast is injective below `2 ^ 64`, so changing `ell` necessarily
changes the seed. -/
theorem seed_coupled_to_ell (a b : Nat) (ha : a < 2 ^ 64) (hb : b < 2 ^ 64)
    (hne : a ≠ b) :
    mainSeed = seedCast ell ∧ ell = 12 ∧ mainSeed = 12 ∧
    seedCast a ≠ seedCast b := by
  refine ⟨rfl, rfl, rfl, ?_⟩
  simp only [seedCast]
  omega

theorem seed_coupled_to_ell_witness :
    mainSeed = seedCast ell ∧ ell = 12 ∧ mainSeed = 12 ∧
    seedCast 0 ≠ seedCast 1 :=
  seed_coupled_to_ell 0 1 (by decide) (by decide) (by decide)

/-- C8: every byte-slice-to-word conversion in the encoder is safe — the
canonical big-endian representation of a field element is exactly 32
bytes, both BN254 moduli lie below `2 ^ 256`, `from_be_slice` therefore
succeeds and returns the element's value untruncated, and the whole
struct-building pass is total whenever the proof's `v` holds at least its
three scalar vectors. -/
theorem word_conversion_never_panics (x y : Nat)
    (vk : HyperKZGVerifierKey) (proof : HyperKZGProof)
    (commitments : List G1Affine) (point evals : List Nat)
    (hv : 3 ≤ proof.v.length) :
    frWord x = some (x % rBN) ∧ fqWord y = some (y % qBN) ∧
    (toBytesBE32 (x % rBN)).length = 32 ∧ x % rBN < 2 ^ 256 ∧
    (buildExample vk proof commitments point evals).isSome = true := by
  refine ⟨frWord_eq x, fqWord_eq y, toBytesBEAux_length 32 _, ?_, ?_⟩
  · exact lt_trans (Nat.mod_lt _ (by norm_num [rBN])) rBN_lt_pow256
  · match hvv : proof.v with
    | [] => rw [hvv] at hv; simp at hv
    | [a] => rw [hvv] at hv; simp at hv
    | [a, b] => rw [hvv] at hv; simp at hv
    | a :: b :: d :: rest =>
      rw [buildExample_eq vk proof commitments point evals a b d rest hvv]
      rfl

theorem word_conversion_never_panics_witness :
    frWord 5 = some (5 % rBN) ∧ fqWord 6 = some (6 % qBN) ∧
    (toBytesBE32 (5 % rBN)).length = 32 ∧ 5 % rBN < 2 ^ 256 ∧
    (buildExample vkW proofW [] [] []).isSome = true :=
  word_conversion_never_panics 5 6 vkW proofW [] [] [] (by decide)

/-- C4: a successful orchestration draws one shared evaluation point of
`ell` scalars after setup and trim; for each of the `numPolys` polynomials
in order, the claim equals the polynomial evaluated at that shared point
and the commitment is the one returned for that polynomial, order-aligned;
exactly one fresh transcript labelled `TestEval` is initialized, and
`BatchProve` is invoked exactly once over the full polynomial list, the
shared point, the claim list and the batching strategy. -/
theorem orchestration_sequence (c : Collab Rng SRS PK Poly)
    (r : OrchResult PK Poly) (h : orchestrate c = some r) :
    r.point.length = ell ∧
    r.polys.length = numPolys ∧
    List.Forall₂ (fun p e => e = c.evaluate p r.point) r.polys r.evals ∧
    List.Forall₂ (fun p cm => c.commit r.pk p = some cm) r.polys r.commitments ∧
    r.trace.take 3 = [CallEvent.setupCall nMain, CallEvent.trimCall nMain,
      CallEvent.pointDraw ell] ∧
    r.trace.filter CallEvent.isTranscriptNew =
      [CallEvent.transcriptNew "TestEval"] ∧
    r.trace.filter CallEvent.isBatchProve =
      [CallEvent.batchProveCall r.polys r.point r.evals BatchType.Big
        (ProofTranscript.new "TestEval")] ∧
    r.proof = c.batchProve (r.pk, r.vk) r.polys r.point r.evals BatchType.Big
      (ProofTranscript.new "TestEval") := by
  obtain ⟨_, _, _, hpt, hpl, _, _, hfa1, hfa2, hproof, hbp, htn, htake, _⟩ :=
    orchestrate_spec c r h
  exact ⟨hpt, hpl, hfa1, hfa2, htake, htn, hbp, hproof⟩

theorem orchestration_sequence_witness :
    rW.point.length = ell ∧
    rW.polys.length = numPolys ∧
    List.Forall₂ (fun p e => e = cW.evaluate p rW.point) rW.polys rW.evals ∧
    List.Forall₂ (fun p cm => cW.commit rW.pk p = some cm) rW.polys
      rW.commitments ∧
    rW.trace.take 3 = [CallEvent.setupCall nMain, CallEvent.trimCall nMain,
      CallEvent.pointDraw ell] ∧
    rW.trace.filter CallEvent.isTranscriptNew =
      [CallEvent.transcriptNew "TestEval"] ∧
    rW.trace.filter CallEvent.isBatchProve =
      [CallEvent.batchProveCall rW.polys rW.point rW.evals BatchType.Big
        (ProofTranscript.new "TestEval")] ∧
    rW.proof = cW.batchProve (rW.pk, rW.vk) rW.polys rW.point rW.evals
      BatchType.Big (ProofTranscript.new "TestEval") :=
  orchestration_sequence cW rW orch_cW

/-- C9: the batching strategy passed to `BatchProve` is always the fixed
selector `Big` — every strategy recorded in the call trace is `Big`, the
trace holds exactly one `BatchProve` invocation, and the proof is its
result with the `Big` strategy passed through unchanged. -/
theorem batch_type_always_big (c : Collab Rng SRS PK Poly)
    (r : OrchResult PK Poly) (h : orchestrate c = some r) :
    (∀ e ∈ r.trace, ∀ bt, e.strategy = some bt → bt = BatchType.Big) ∧
    r.trace.countP CallEvent.isBatchProve = 1 ∧
    r.proof = c.batchProve (r.pk, r.vk) r.polys r.point r.evals BatchType.Big
      (ProofTranscript.new "TestEval") := by
  obtain ⟨_, _, _, _, _, _, _, _, _, hproof, hbp, _, _, _⟩ :=
    orchestrate_spec c r h
  refine ⟨?_, ?_, hproof⟩
  · intro e he bt hstrat
    have hmem : e ∈ r.trace.filter CallEvent.isBatchProve :=
      List.mem_filter.mpr ⟨he, strategy_isBatchProve e bt hstrat⟩
    rw [hbp] at hmem
    simp only [List.mem_singleton] at hmem
    subst hmem
    simp only [CallEvent.strategy, Option.some.injEq] at hstrat
    exact hstrat.symm
  · rw [List.countP_eq_length_filter, hbp]
    rfl

theorem batch_type_always_big_witness :
    (∀ e ∈ rW.trace, ∀ bt, e.strategy = some bt → bt = BatchType.Big) ∧
    rW.trace.countP CallEvent.isBatchProve = 1 ∧
    rW.proof = cW.batchProve (rW.pk, rW.vk) rW.polys rW.point rW.evals
      BatchType.Big (ProofTranscript.new "TestEval") :=
  batch_type_always_big cW rW orch_cW

/-- C3: for the program's parameters `ell = 12` and `numPolys = 8`, the
encoded dynamic arrays have exactly these word counts: `commitments`
`2 * numPolys = 16`, `point` `ell = 12`, `claims` `numPolys = 8`,
`v_ypos`, `v_yneg` and `v_y` each `ell = 12` (given the spec's shape of
the proof's scalar vectors), and `com` and `w` each twice the number of
folding points returned by `BatchProve`. -/
theorem encoded_array_lengths (c : Collab Rng SRS PK Poly)
    (r : OrchResult PK Poly) (ex : BatchedExample)
    (h1 : orchestrate c = some r)
    (h2 : buildExample r.vk r.proof r.commitments r.point r.evals = some ex)
    (hv : ∀ l ∈ r.proof.v, l.length = ell) :
    ex.commitments.length = 2 * numPolys ∧ ex.commitments.length = 16 ∧
    ex.point.length = ell ∧ ex.point.length = 12 ∧
    ex.claims.length = numPolys ∧ ex.claims.length = 8 ∧
    ex.proof.v_ypos.length = 12 ∧ ex.proof.v_yneg.length = 12 ∧
    ex.proof.v_y.length = 12 ∧
    ex.proof.com.length = 2 * r.proof.com.length ∧
    ex.proof.w.length = 2 * r.proof.w.length := by
  obtain ⟨a, b, d, rest, hvv, hex⟩ :=
    buildExample_shape r.vk r.proof r.commitments r.point r.evals ex h2
  obtain ⟨_, _, _, hpt, _, hev, hcm, _, _, _⟩ := orchestrate_spec c r h1
  subst hex
  have ha : a.length = ell := hv a (by rw [hvv]; exact List.mem_cons_self a _)
  have hb : b.length = ell := hv b (by rw [hvv]; simp)
  have hd : d.length = ell := hv d (by rw [hvv]; simp)
  refine ⟨?_, ?_, ?_, ?_, ?_, ?_, ?_, ?_, ?_, ?_, ?_⟩ <;>
    simp [specInterleaveG1_length, frWordList_length, hcm, hpt, hev, ha, hb, hd,
      numPolys, ell]

theorem encoded_array_lengths_witness :
    exW.commitments.length = 2 * numPolys ∧ exW.commitments.length = 16 ∧
    exW.point.length = ell ∧ exW.point.length = 12 ∧
    exW.claims.length = numPolys ∧ exW.claims.length = 8 ∧
    exW.proof.v_ypos.length = 12 ∧ exW.proof.v_yneg.length = 12 ∧
    exW.proof.v_y.length = 12 ∧
    exW.proof.com.length = 2 * rW.proof.com.length ∧
    exW.proof.w.length = 2 * rW.proof.w.length :=
  encoded_array_lengths cW rW exW orch_cW build_cW (by decide)

/-- C7: every failure is fatal and unrecovered — if `Commit` fails for any
of the polynomials the loop generates, the orchestration aborts at that
point and the program terminates with no hex output. -/
theorem commit_failure_aborts_without_output (env : Env)
    (c : Collab Rng SRS PK Poly) (i : Nat) (hi : i < numPolys)
    (hfail : c.commit (pkOf c) (mainPoly c i) = none) :
    orchestrate c = none ∧ runMain env c = none := by
  simp only [pkOf, mainPoly] at hfail
  have hloop : loopRes c = none := by
    unfold loopRes
    apply commitLoop_none_of_fail
    refine ⟨i, hi, ?_⟩
    simp only [initState]
    exact hfail
  constructor
  · unfold orchestrate
    rw [hloop]
  · unfold runMain orchestrate
    rw [hloop]

set_option maxRecDepth 100000 in
theorem commit_failure_aborts_without_output_witness :
    orchestrate cBad = none ∧ runMain envW cBad = none :=
  commit_failure_aborts_without_output envW cBad 0 (by decide) (by decide)

/-- C2: the output byte string is the contract-ABI head/tail encoding of
the struct with fields in declaration order `vk`, `proof`, `commitments`,
`point`, `claims`: after the top offset word come the five head words of
the struct, then the `VK` tuple (two static words, then the two
`uint256[]` bodies `VK_g2` and `VK_beta_g2` in order `x.c0`, `x.c1`,
`y.c0`, `y.c1`), then the proof tuple (`com`, `w`, `v_ypos`, `v_yneg`,
`v_y` bodies), then the `commitments`, `point` and `claims` bodies; every
G1-point list is flattened as x,y interleaved pairs in list order. -/
theorem output_is_abi_encoding (env : Env) (c : Collab Rng SRS PK Poly)
    (r : OrchResult PK Poly) (ex : BatchedExample)
    (h1 : orchestrate c = some r)
    (h2 : buildExample r.vk r.proof r.commitments r.point r.evals = some ex) :
    runMain env c = some (hexEncode (wordsToBytes ex.abiEncode)) ∧
    ex.commitments = specInterleaveG1 r.commitments ∧
    ex.proof.com = specInterleaveG1 r.proof.com ∧
    ex.proof.w = specInterleaveG1 r.proof.w ∧
    ex.point = frWordList r.point ∧
    ex.claims = frWordList r.evals ∧
    ex.abiEncode =
      [32, 160,
       32 * (11 + ex.vk.VK_g2.length + ex.vk.VK_beta_g2.length),
       32 * (21 + ex.vk.VK_g2.length + ex.vk.VK_beta_g2.length
            + ex.proof.com.length + ex.proof.w.length + ex.proof.v_ypos.length
            + ex.proof.v_yneg.length + ex.proof.v_y.length),
       32 * (22 + ex.vk.VK_g2.length + ex.vk.VK_beta_g2.length
            + ex.proof.com.length + ex.proof.w.length + ex.proof.v_ypos.length
            + ex.proof.v_yneg.length + ex.proof.v_y.length
            + ex.commitments.length),
       32 * (23 + ex.vk.VK_g2.length + ex.vk.VK_beta_g2.length
            + ex.proof.com.length + ex.proof.w.length + ex.proof.v_ypos.length
            + ex.proof.v_yneg.length + ex.proof.v_y.length
            + ex.commitments.length + ex.point.length)]
      ++ [ex.vk.VK_g1_x, ex.vk.VK_g1_y, 128, 32 * (5 + ex.vk.VK_g2.length)]
      ++ (ex.vk.VK_g2.length :: ex.vk.VK_g2)
      ++ (ex.vk.VK_beta_g2.length :: ex.vk.VK_beta_g2)
      ++ [160, 32 * (6 + ex.proof.com.length),
          32 * (7 + ex.proof.com.length + ex.proof.w.length),
          32 * (8 + ex.proof.com.length + ex.proof.w.length
               + ex.proof.v_ypos.length),
          32 * (9 + ex.proof.com.length + ex.proof.w.length
               + ex.proof.v_ypos.length + ex.proof.v_yneg.length)]
      ++ (ex.proof.com.length :: ex.proof.com)
      ++ (ex.proof.w.length :: ex.proof.w)
      ++ (ex.proof.v_ypos.length :: ex.proof.v_ypos)
      ++ (ex.proof.v_yneg.length :: ex.proof.v_yneg)
      ++ (ex.proof.v_y.length :: ex.proof.v_y)
      ++ (ex.commitments.length :: ex.commitments)
      ++ (ex.point.length :: ex.point)
      ++ (ex.claims.length :: ex.claims) := by
  obtain ⟨a, b, d, rest, hvv, hex⟩ :=
    buildExample_shape r.vk r.proof r.commitments r.point r.evals ex h2
  refine ⟨?_, ?_, ?_, ?_, ?_, ?_, ?_⟩
  · simp only [runMain, h1, h2]
  · rw [hex]
  · rw [hex]
  · rw [hex]
  · rw [hex]
  · rw [hex]
  · exact abiEncode_layout ex.vk ex.proof ex.commitments ex.point ex.claims

theorem output_is_abi_encoding_witness :
    runMain envW cW = some (hexEncode (wordsToBytes exW.abiEncode)) ∧
    exW.commitments = specInterleaveG1 rW.commitments ∧
    exW.proof.com = specInterleaveG1 rW.proof.com ∧
    exW.proof.w = specInterleaveG1 rW.proof.w ∧
    exW.point = frWordList rW.point ∧
    exW.claims = frWordList rW.evals ∧
    exW.abiEncode =
      [32, 160,
       32 * (11 + exW.vk.VK_g2.length + exW.vk.VK_beta_g2.length),
       32 * (21 + exW.vk.VK_g2.length + exW.vk.VK_beta_g2.length
            + exW.proof.com.length + exW.proof.w.length
            + exW.proof.v_ypos.length + exW.proof.v_yneg.length
            + exW.proof.v_y.length),
       32 * (22 + exW.vk.VK_g2.length + exW.vk.VK_beta_g2.length
            + exW.proof.com.length + exW.proof.w.length
            + exW.proof.v_ypos.length + exW.proof.v_yneg.length
            + exW.proof.v_y.length + exW.commitments.length),
       32 * (23 + exW.vk.VK_g2.length + exW.vk.VK_beta_g2.length
            + exW.proof.com.length + exW.proof.w.length
            + exW.proof.v_ypos.length + exW.proof.v_yneg.length
            + exW.proof.v_y.length + exW.commitments.length
            + exW.point.length)]
      ++ [exW.vk.VK_g1_x, exW.vk.VK_g1_y, 128, 32 * (5 + exW.vk.VK_g2.length)]
      ++ (exW.vk.VK_g2.length :: exW.vk.VK_g2)
      ++ (exW.vk.VK_beta_g2.length :: exW.vk.VK_beta_g2)
      ++ [160, 32 * (6 + exW.proof.com.length),
          32 * (7 + exW.proof.com.length + exW.proof.w.length),
          32 * (8 + exW.proof.com.length + exW.proof.w.length
               + exW.proof.v_ypos.length),
          32 * (9 + exW.proof.com.length + exW.proof.w.length
               + exW.proof.v_ypos.length + exW.proof.v_yneg.length)]
      ++ (exW.proof.com.length :: exW.proof.com)
      ++ (exW.proof.w.length :: exW.proof.w)
      ++ (exW.proof.v_ypos.length :: exW.proof.v_ypos)
      ++ (exW.proof.v_yneg.length :: exW.proof.v_yneg)
      ++ (exW.proof.v_y.length :: exW.proof.v_y)
      ++ (exW.commitments.length :: exW.commitments)
      ++ (exW.point.length :: exW.point)
      ++ (exW.claims.length :: exW.claims) :=
  output_is_abi_encoding envW cW rW exW orch_cW build_cW

/-- C6: on success the program's sole standard-output text is exactly the
lowercase-hexadecimal rendering of the contract-ABI encoding of the built
struct — every character of it lies in the lowercase hex alphabet (in
particular it contains no newline), and nothing else is produced. -/
theorem output_single_lowercase_hex_line (env : Env)
    (c : Collab Rng SRS PK Poly) (r : OrchResult PK Poly)
    (ex : BatchedExample) (h1 : orchestrate c = some r)
    (h2 : buildExample r.vk r.proof r.commitments r.point r.evals = some ex) :
    runMain env c = some (hexEncode (wordsToBytes ex.abiEncode)) ∧
    (∀ ch ∈ hexEncode (wordsToBytes ex.abiEncode),
      isHexLowerChar ch = true) := by
  constructor
  · simp only [runMain, h1, h2]
  · exact hexEncode_lower _ (wordsToBytes_lt _)

theorem output_single_lowercase_hex_line_witness :
    runMain envW cW = some (hexEncode (wordsToBytes exW.abiEncode)) ∧
    (∀ ch ∈ hexEncode (wordsToBytes exW.abiEncode),
      isHexLowerChar ch = true) :=
  output_single_lowercase_hex_line envW cW rW exW orch_cW build_cW
